import Mathlib

/-!
# Verification of the mlua call-boundary core

Shallow embedding of `src/state/util.rs` (failure-capsule pool, callback
trampolines, auxiliary reference-stack allocator) and
`src/userdata/registry.rs` (typed method registry) of the `mluau/mlua`
repository, together with theorems settling the frozen claims about them.

Foreign-runtime (Lua) stacks are modelled as Lean lists whose head is the
bottom slot (Lua index 1).  Machine pointers to `WrappedFailure` userdata are
modelled as indices into an explicit capsule heap.  Calls to foreign
primitives whose only relevant effect is "it happened" (growing a stack,
attaching the internal metatable, raising, yielding) are recorded in a ghost
event trace on the state.  The `luau` cargo feature is taken as enabled, as
in the upstream build this fork targets, so the `lua_rawcheckstack`
pre-checks guarded by `#[cfg(feature = "luau")]` are part of the model.
-/

namespace Mlua

/-- Host-level structured error (`crate::error::Error`), restricted to the
variants the analysed code constructs or matches on; `other` stands for the
remaining variants, which the analysed code only passes through opaquely.
`Arc<Error>` is modelled as plain ownership of the cause value. -/
inductive HostError where
  | callbackError (traceback : String) (cause : HostError)
  | external (msg : String)
  | badSelfArgument (name : String) (cause : HostError)
  | userDataTypeMismatch
  | recursiveMutCallback
  | fromLuaConversionError (fromTy toTy : String) (message : Option String)
  | metaMethodTypeError (method typeName : String) (message : Option String)
  | other (code : Nat)
deriving DecidableEq, Repr

instance {ε α : Type} [DecidableEq ε] [DecidableEq α] : DecidableEq (Except ε α) :=
  fun x y =>
    match x, y with
    | Except.ok a, Except.ok b =>
      if h : a = b then isTrue (by rw [h]) else isFalse (by simp [h])
    | Except.error a, Except.error b =>
      if h : a = b then isTrue (by rw [h]) else isFalse (by simp [h])
    | Except.ok _, Except.error _ => isFalse (by simp)
    | Except.error _, Except.ok _ => isFalse (by simp)

/-- Payload of a `WrappedFailure` capsule userdata: uninitialised, a
structured host error, or a captured panic payload (`π` is the opaque panic
payload type; the code stores it as `Panic(Some(p))`). -/
inductive WrappedFailure (π : Type) where
  | none
  | error (e : HostError)
  | panic (p : Option π)
deriving DecidableEq, Repr

/-- A value in a foreign-runtime stack slot: nil, a `WrappedFailure`
userdata handle (index into the capsule heap), a string, or any other value
the model does not need to distinguish. -/
inductive LV where
  | nil
  | ud (id : Nat)
  | str (s : String)
  | other (n : Nat)
deriving DecidableEq, Repr

/-- Ghost trace of foreign-primitive calls whose occurrence (and order) the
claims talk about. -/
inductive Event where
  | rawcheckstack (n : Nat)
  | tracebackCaptured
  | setInternalMetatable
  | typeTagCheck
  | userClosureRun
deriving DecidableEq, Repr

/-- The state visible to the analysed code: the current call frame (`state`),
the previously-current frame the raw handle points at after the state guard
is dropped (`rawst`), the auxiliary reference thread, the capsule heap, and
the relevant `ExtraData` fields, plus the ghost event trace.  Stacks are
lists with head = Lua index 1; the `Vec` fields are used LIFO in the source,
modelled as lists with push = cons, pop = head. -/
structure S (π : Type) where
  main : List LV
  rawst : List LV
  refth : List LV
  caps : List (WrappedFailure π)
  wrapped_failure_top : Nat
  wrapped_failure_pool : List Nat
  ref_free : List Nat
  ref_stack_top : Nat
  ref_stack_size : Nat
  yielded : List Nat
  events : List Event
deriving DecidableEq, Repr

/-- Append a ghost event. -/
def S.emit (s : S π) (e : Event) : S π :=
  { s with events := s.events ++ [e] }

/-- Read auxiliary-thread slot `i` (1-based Lua index). -/
def S.refSlot (s : S π) (i : Nat) : LV :=
  s.refth.getD (i - 1) LV.nil

/-- `lua_touserdata`: the unchecked pointer extraction never fails; on a
non-userdata value it yields a junk pointer, modelled as heap index 0. -/
def touserdata : LV → Nat
  | LV.ud id => id
  | _ => 0

/-- `lua_settop(state, n)` on the main stack, for `n ≥ 0`: truncate, padding
with nil if the stack is shorter. -/
def S.mainSettop (s : S π) (n : Nat) : S π :=
  { s with main := s.main.take n ++ List.replicate (n - s.main.length) LV.nil }

/-- Write capsule `id` (`ptr::write` through the userdata pointer). -/
def S.writeCap (s : S π) (id : Nat) (w : WrappedFailure π) : S π :=
  { s with caps := s.caps.set id w }

/-- `PreallocatedFailure`: the reservation token handed out by the capsule
pool; `New` carries the heap handle of a freshly allocated capsule. -/
inductive PreallocatedFailure where
  | New (ud : Nat)
  | Reserved
deriving DecidableEq, Repr

/-- `PreallocatedFailure::reserve`: pop an idle pooled capsule if the idle
count is positive; otherwise pre-check the current stack for 2 extra slots
(`lua_rawcheckstack`, luau feature), allocate a fresh `WrappedFailure`
userdata and move it to the base (index 1) of the call frame. -/
def reserve (s : S π) : PreallocatedFailure × S π :=
  if s.wrapped_failure_top > 0 then
    (PreallocatedFailure.Reserved,
      { s with wrapped_failure_top := s.wrapped_failure_top - 1 })
  else
    let s := s.emit (Event.rawcheckstack 2)
    let id := s.caps.length
    let s := { s with caps := s.caps ++ [WrappedFailure.none] }
    -- WrappedFailure::new_userdata pushes on top; lua_insert(state, 1)
    -- rotates it down to index 1.
    let s := { s with main := LV.ud id :: s.main }
    (PreallocatedFailure.New id, s)

/-- `PreallocatedFailure::use` (written `r#use` in the source): materialize
the reserved capsule on the current call frame and return its heap handle.
For `New`, clear the frame down to the capsule at index 1.  For `Reserved`,
pop a recycled index off the pool free-list, move the parked capsule from
the reference thread onto the cleared frame, nil out its auxiliary slot and
record the index on `ref_free`.  `none` models the `unwrap` on an empty
pool, proved unreachable under the pool invariant. -/
def useTok (pf : PreallocatedFailure) (s : S π) : Option (Nat × S π) :=
  match pf with
  | PreallocatedFailure.New id => some (id, s.mainSettop 1)
  | PreallocatedFailure.Reserved =>
    match s.wrapped_failure_pool with
    | [] => none
    | index :: rest =>
      let s := { s with wrapped_failure_pool := rest }
      let s := s.mainSettop 0
      let s := s.emit (Event.rawcheckstack 2)
      -- lua_xpush(ref_thread, state, index)
      let v := s.refSlot index
      let s := { s with main := s.main ++ [v] }
      -- lua_pushnil(ref_thread); lua_replace(ref_thread, index)
      let s := { s with refth := s.refth.set (index - 1) LV.nil }
      let s := { s with ref_free := index :: s.ref_free }
      some (touserdata v, s)

/-- First increment `inc ≤ size, size/2, size/4, …` that the reference
thread can still grow by (`while inc > 0 && lua_checkstack(..) == 0
{ inc /= 2 }`); `0` when every attempt fails.  `canGrow i` models
`lua_checkstack(ref_thread, i) != 0`. -/
def growInc (canGrow : Nat → Bool) : Nat → Nat
  | 0 => 0
  | Nat.succ n =>
    if canGrow (n + 1) then n + 1 else growInc canGrow ((n + 1) / 2)
termination_by n => n
decreasing_by
  simp_wf
  omega

/-- Result of `ref_stack_pop`: the allocated slot index with the new state,
or the fatal out-of-auxiliary-stack report (a Rust `panic!`) carrying the
number of slots in use, with the transient top entry already popped. -/
inductive RefPopResult (π : Type) where
  | ok (index : Nat) (s : S π)
  | fatal (used : Nat) (s : S π)
deriving DecidableEq, Repr

/-- `ref_stack_pop`: reuse a free-listed index first (`lua_replace` moves the
value on top of the reference thread into that slot); otherwise grow the max
stack size when the top has reached it, doubling and backing off by halving,
and hand out the new top index.  When no growth is possible, pop the
transient top entry and report fatally with the used-slot count. -/
def ref_stack_pop (canGrow : Nat → Bool) (s : S π) : RefPopResult π :=
  match s.ref_free with
  | free :: rest =>
    let v := s.refth.getLast?.getD LV.nil
    let s := { s with refth := (s.refth.dropLast).set (free - 1) v }
    RefPopResult.ok free { s with ref_free := rest }
  | [] =>
    if s.ref_stack_top ≥ s.ref_stack_size then
      let inc := growInc canGrow s.ref_stack_size
      if inc = 0 then
        RefPopResult.fatal s.ref_stack_top { s with refth := s.refth.dropLast }
      else
        let s := { s with ref_stack_size := s.ref_stack_size + inc }
        RefPopResult.ok (s.ref_stack_top + 1)
          { s with ref_stack_top := s.ref_stack_top + 1 }
    else
      RefPopResult.ok (s.ref_stack_top + 1)
        { s with ref_stack_top := s.ref_stack_top + 1 }

/-- Result of `PreallocatedFailure::release`: the updated state, or the
fatal propagated from `ref_stack_pop`. -/
inductive RelResult (π : Type) where
  | ok (s : S π)
  | fatal (used : Nat) (s : S π)
deriving DecidableEq, Repr

/-- `PreallocatedFailure::release` (success path only): for `New`, rotate
the capsule from index 1 to the top, move it onto the reference thread, park
it in a slot from `ref_stack_pop`, push that index on the pool free-list and
bump the idle count; for `Reserved`, just bump the idle count. -/
def release (pf : PreallocatedFailure) (canGrow : Nat → Bool) (s : S π) :
    RelResult π :=
  match pf with
  | PreallocatedFailure.New _ =>
    -- lua_rotate(state, 1, -1): the bottom element moves to the top
    let s : S π := { s with
      main := match s.main with
        | [] => []
        | b :: rest => rest ++ [b] }
    -- lua_xmove(state, ref_thread, 1)
    let moved := s.main.getLast?.getD LV.nil
    let s : S π := { s with main := s.main.dropLast, refth := s.refth ++ [moved] }
    match ref_stack_pop canGrow s with
    | RefPopResult.ok index s =>
      RelResult.ok { s with
        wrapped_failure_pool := index :: s.wrapped_failure_pool,
        wrapped_failure_top := s.wrapped_failure_top + 1 }
    | RefPopResult.fatal used s => RelResult.fatal used s
  | PreallocatedFailure.Reserved =>
    RelResult.ok { s with wrapped_failure_top := s.wrapped_failure_top + 1 }

/-- Outcome of the single host-closure invocation under `catch_unwind`:
normal return (carrying the contents of `extra.yielded_values` as left by the
closure), structured host error, or captured panic payload. -/
inductive FOut (R π : Type) where
  | ok (r : R) (yv : List Nat)
  | err (e : HostError)
  | panic (p : π)
deriving DecidableEq, Repr

/-- Observable outcome of a trampoline invocation: normal return, a foreign
error raise (`lua_error`) whose value is capsule `capId`, a foreign yield
(`lua_yield`) of `n` values, the fatal auxiliary-stack report, or the
model-level `stuck` marking the `unwrap` of an empty pool (unreachable under
the pool invariant). -/
inductive TrampOut (R π : Type) where
  | ret (r : R) (s : S π)
  | raised (capId : Nat) (s : S π)
  | yielded (n : Nat) (s : S π)
  | fatal (used : Nat) (s : S π)
  | stuck (s : S π)
deriving DecidableEq, Repr

/-- Common raise tail of every failure branch: write the capsule, attach the
internal `WrappedFailure` metatable (`get_internal_metatable` +
`lua_setmetatable`) and transfer control via `lua_error`. -/
def raiseWith (cap : Nat) (w : WrappedFailure π) (s : S π) : TrampOut R π :=
  let s := s.writeCap cap w
  let s := s.emit Event.setInternalMetatable
  TrampOut.raised cap s

/-- `callback_error_ext`: reserve a capsule before any host code runs, run
the closure under panic capture (abstracted by `fout`), and dispatch on the
outcome.  `csTraceback` models `lua_checkstack(state, LUA_TRACEBACK_STACK)`,
`tb` the string `luaL_traceback` would build, `canGrow` the reference
thread's remaining growth room. -/
def callback_error_ext (wrap_error csTraceback : Bool) (tb : String)
    (canGrow : Nat → Bool) (fout : FOut R π) (s : S π) : TrampOut R π :=
  let (prealloc_failure, s) := reserve s
  match fout with
  | FOut.ok r _ =>
    -- take(&mut extra.yielded_values) discards whatever the closure stored
    let s := { s with yielded := [] }
    match release prealloc_failure canGrow s with
    | RelResult.ok s => TrampOut.ret r s
    | RelResult.fatal used s => TrampOut.fatal used s
  | FOut.err e =>
    match useTok prealloc_failure s with
    | none => TrampOut.stuck s
    | some (wrapped_error, s) =>
      if !wrap_error then
        raiseWith wrapped_error (WrappedFailure.error e) s
      else
        let (traceback, s) :=
          if csTraceback then (tb, s.emit Event.tracebackCaptured)
          else ("<not enough stack space for traceback>", s)
        raiseWith wrapped_error
          (WrappedFailure.error (HostError.callbackError traceback e)) s
  | FOut.panic p =>
    match useTok prealloc_failure s with
    | none => TrampOut.stuck s
    | some (wrapped_panic, s) =>
      raiseWith wrapped_panic (WrappedFailure.panic (some p)) s

/-- `callback_error_ext_yieldable`: like `callback_error_ext` but returning
a raw result code; on success with a non-empty yielded-values buffer it
encodes the buffered values onto the raw handle's stack
(`push_into_stack_multi`, abstracted by `encode`), moves them to the calling
frame and yields instead of returning; an encoding failure is routed through
the capsule failure path as an external error. -/
def callback_error_ext_yieldable (wrap_error csTraceback : Bool) (tb : String)
    (canGrow : Nat → Bool) (encode : List Nat → Except String (List LV))
    (fout : FOut Nat π) (s : S π) : TrampOut Nat π :=
  let (prealloc_failure, s) := reserve s
  match fout with
  | FOut.ok r yv =>
    -- let values = take(&mut extra.yielded_values)
    let values := yv
    let s := { s with yielded := [] }
    if values.isEmpty then
      match release prealloc_failure canGrow s with
      | RelResult.ok s => TrampOut.ret r s
      | RelResult.fatal used s => TrampOut.fatal used s
    else
      match encode values with
      | Except.ok lvs =>
        let s := { s with rawst := s.rawst ++ lvs }
        let nargs := lvs.length
        -- lua_pop(state, -1) is lua_settop(state, 0)
        let s := s.mainSettop 0
        -- lua_xmove(raw.state(), state, nargs)
        let s := { s with
          rawst := s.rawst.take (s.rawst.length - nargs),
          main := s.main ++ s.rawst.drop (s.rawst.length - nargs) }
        TrampOut.yielded nargs s
      | Except.error errmsg =>
        match useTok prealloc_failure s with
        | none => TrampOut.stuck s
        | some (wrapped_error, s) =>
          raiseWith wrapped_error
            (WrappedFailure.error (HostError.external errmsg)) s
  | FOut.err e =>
    match useTok prealloc_failure s with
    | none => TrampOut.stuck s
    | some (wrapped_error, s) =>
      if !wrap_error then
        raiseWith wrapped_error (WrappedFailure.error e) s
      else
        let (traceback, s) :=
          if csTraceback then (tb, s.emit Event.tracebackCaptured)
          else ("<not enough stack space for traceback>", s)
        raiseWith wrapped_error
          (WrappedFailure.error (HostError.callbackError traceback e)) s
  | FOut.panic p =>
    match useTok prealloc_failure s with
    | none => TrampOut.stuck s
    | some (wrapped_panic, s) =>
      raiseWith wrapped_panic (WrappedFailure.panic (some p)) s

/-! ## Typed method registry (`src/userdata/registry.rs`) -/

/-- `UserDataType`: self-object identity mode.  Runtime type tags
(`TypeIdHints` / `TypeId`) and raw userdata addresses are modelled as
naturals. -/
inductive UserDataType where
  | Shared (hints : Nat)
  | Unique (ptr : Nat)
deriving DecidableEq, Repr

/-- The foreign object found at the self position: its raw address and, when
it is a userdata registered as some host type, that type's runtime tag. -/
structure SelfObj where
  addr : Nat
  regTag : Option Nat
deriving DecidableEq, Repr

/-- Result of one type-erased callback invocation: the `Result<c_int>` the
closure returns plus the ghost events it emitted, in order. -/
abbrev CbRes := Except HostError Nat × List Event

/-- Inputs of one callback invocation that the surrounding code does not
inspect: the argument count, the self object, the outcome of
`A::from_specified_stack_args` (evaluated eagerly, consumed lazily inside
the borrow body via `args?`), and the outcome of the user method composed
with `push_into_specified_stack_multi`. -/
structure MCall where
  nargs : Nat
  selfv : SelfObj
  argsRes : Except HostError Unit
  methodRes : Except HostError Nat
deriving DecidableEq, Repr

/-- Modelled from the spec: `RawLua::get_userdata_type_id::<T>` is declared
outside `src/`.  Per the spec's §4.4 ("look up the foreign object's runtime
type tag; if it is not registered at all, or registered as a different host
type, report a self-mismatch error"), it yields the object's runtime type
tag and fails with a type-mismatch error when the object is not registered
as any host type; the mismatch against the expected type is reported by the
scoped borrow that receives the tag. -/
def get_userdata_type_id (obj : SelfObj) : Except HostError Nat :=
  match obj.regTag with
  | some tag => Except.ok tag
  | none => Except.error HostError.userDataTypeMismatch

/-- Run the borrow body: consume `args?`, then run the user closure. -/
def runBody (argsRes : Except HostError Unit)
    (methodRes : Except HostError Nat) : CbRes :=
  match argsRes with
  | Except.error e => (Except.error e, [])
  | Except.ok _ => (methodRes, [Event.userClosureRun])

/-- Modelled from the spec: `borrow_userdata_scoped` is declared outside
`src/`.  It compares the object's runtime tag against the expected type
hints, reporting a type mismatch on disagreement, and otherwise runs the
body under a scoped shared borrow; the outer `Except` is the borrow
machinery's own error, wrapped by the caller into a bad-self-argument
error. -/
def borrow_userdata_scoped (tag hints : Nat) (body : CbRes) :
    Except HostError CbRes :=
  if tag = hints then Except.ok body else Except.error HostError.userDataTypeMismatch

/-- Modelled from the spec: `borrow_userdata_scoped_mut`, the exclusive
variant of `borrow_userdata_scoped` with the same tag comparison. -/
def borrow_userdata_scoped_mut (tag hints : Nat) (body : CbRes) :
    Except HostError CbRes :=
  if tag = hints then Except.ok body else Except.error HostError.userDataTypeMismatch

/-- Modelled from the spec: `UserDataStorage::try_borrow_scoped` (and its
`_mut` variant) on the unique singleton storage; borrow conflicts on the
storage itself are outside the analysed claims, so the borrow succeeds and
the body runs. -/
def try_borrow_scoped (body : CbRes) : Except HostError CbRes :=
  Except.ok body

/-- `get_function_name`: `"{short_type_name::<T>()}.{name}"`. -/
def get_function_name (tyName name : String) : String :=
  tyName ++ "." ++ name

/-- `UserDataRegistry::box_method`: the type-erased closure built for a
shared-borrow method.  `name` is the `get_function_name` result captured at
registration time. -/
def box_method (tt : UserDataType) (name : String) (c : MCall) : CbRes :=
  if c.nargs = 0 then
    (Except.error (HostError.badSelfArgument name
      (HostError.fromLuaConversionError "missing argument" "userdata" none)), [])
  else
    match tt with
    | UserDataType.Shared hints =>
      match get_userdata_type_id c.selfv with
      | Except.error e =>
        (Except.error (HostError.badSelfArgument name e), [Event.typeTagCheck])
      | Except.ok type_id =>
        match borrow_userdata_scoped type_id hints (runBody c.argsRes c.methodRes) with
        | Except.error e =>
          (Except.error (HostError.badSelfArgument name e), [Event.typeTagCheck])
        | Except.ok (r, evs) => (r, Event.typeTagCheck :: evs)
    | UserDataType.Unique target =>
      if c.selfv.addr = target then
        match try_borrow_scoped (runBody c.argsRes c.methodRes) with
        | Except.error e => (Except.error (HostError.badSelfArgument name e), [])
        | Except.ok (r, evs) => (r, evs)
      else
        match get_userdata_type_id c.selfv with
        | Except.error e =>
          (Except.error (HostError.badSelfArgument name e), [Event.typeTagCheck])
        | Except.ok _ =>
          (Except.error (HostError.badSelfArgument name HostError.userDataTypeMismatch),
            [Event.typeTagCheck])

/-- `UserDataRegistry::box_method_mut`: the exclusive-borrow variant; the
user closure is kept in a `RefCell` and `try_borrow_mut` is the first thing
the closure does, `active` modelling whether an invocation of the same
callback is still borrowing it. -/
def box_method_mut (tt : UserDataType) (name : String) (active : Bool)
    (c : MCall) : CbRes :=
  if active then
    (Except.error HostError.recursiveMutCallback, [])
  else if c.nargs = 0 then
    (Except.error (HostError.badSelfArgument name
      (HostError.fromLuaConversionError "missing argument" "userdata" none)), [])
  else
    match tt with
    | UserDataType.Shared hints =>
      match get_userdata_type_id c.selfv with
      | Except.error e =>
        (Except.error (HostError.badSelfArgument name e), [Event.typeTagCheck])
      | Except.ok type_id =>
        match borrow_userdata_scoped_mut type_id hints (runBody c.argsRes c.methodRes) with
        | Except.error e =>
          (Except.error (HostError.badSelfArgument name e), [Event.typeTagCheck])
        | Except.ok (r, evs) => (r, Event.typeTagCheck :: evs)
    | UserDataType.Unique target =>
      if c.selfv.addr = target then
        match try_borrow_scoped (runBody c.argsRes c.methodRes) with
        | Except.error e => (Except.error (HostError.badSelfArgument name e), [])
        | Except.ok (r, evs) => (r, evs)
      else
        match get_userdata_type_id c.selfv with
        | Except.error e =>
          (Except.error (HostError.badSelfArgument name e), [Event.typeTagCheck])
        | Except.ok _ =>
          (Except.error (HostError.badSelfArgument name HostError.userDataTypeMismatch),
            [Event.typeTagCheck])

/-- `UserDataRegistry::box_function`: free-function callback, no self
resolution; the argument conversion error propagates unwrapped. -/
def box_function (argsRes : Except HostError Unit)
    (fnRes : Except HostError Nat) : CbRes :=
  match argsRes with
  | Except.error e => (Except.error e, [])
  | Except.ok _ => (fnRes, [Event.userClosureRun])

/-- `UserDataRegistry::box_function_mut`: mutable free-function callback in
a `RefCell`; `try_borrow_mut` runs before anything else. -/
def box_function_mut (active : Bool) (argsRes : Except HostError Unit)
    (fnRes : Except HostError Nat) : CbRes :=
  if active then
    (Except.error HostError.recursiveMutCallback, [])
  else
    box_function argsRes fnRes

/-- `RawUserDataRegistry`: the frozen registration record.  Entry callables
(`Callback`) are opaque, modelled by handles; plain fields and meta-fields
carry `Result<Value>`. -/
structure RawUserDataRegistry where
  fields : List (String × Except HostError LV)
  field_getters : List (String × Nat)
  field_setters : List (String × Nat)
  meta_fields : List (String × Except HostError LV)
  methods : List (String × Nat)
  meta_methods : List (String × Nat)
  destructor : Nat
  type_id : Option Nat
  type_name : String
deriving DecidableEq, Repr

/-- The `lua_userdata_impl!` delegation body: `T::register` builds `orig`,
then every entry collection of `orig` is appended (`extend`) onto the
delegating registry's collections. -/
def lua_userdata_register (registry orig : RawUserDataRegistry) :
    RawUserDataRegistry :=
  { registry with
    fields := registry.fields ++ orig.fields,
    field_getters := registry.field_getters ++ orig.field_getters,
    field_setters := registry.field_setters ++ orig.field_setters,
    meta_fields := registry.meta_fields ++ orig.meta_fields,
    methods := registry.methods ++ orig.methods,
    meta_methods := registry.meta_methods ++ orig.meta_methods }

/-- Number of entry categories in which `b` differs from `a`. -/
def categoriesChanged (a b : RawUserDataRegistry) : Nat :=
  (if a.fields = b.fields then 0 else 1) +
  (if a.field_getters = b.field_getters then 0 else 1) +
  (if a.field_setters = b.field_setters then 0 else 1) +
  (if a.meta_fields = b.meta_fields then 0 else 1) +
  (if a.methods = b.methods then 0 else 1) +
  (if a.meta_methods = b.meta_methods then 0 else 1)

/-! ## Reservation sequences and the pool invariant -/

/-- A fresh `ExtraData` with auxiliary max stack size `size`: empty pool,
empty free-lists, nothing allocated. -/
def initS (π : Type) (size : Nat) : S π :=
  ⟨[], [], [], [], 0, [], [], 0, size, [], []⟩

/-- One reservation resolved on the success path before the next reserve. -/
def cycle (canGrow : Nat → Bool) (s : S π) : RelResult π :=
  let (pf, s) := reserve s
  release pf canGrow s

/-- `n` sequential reserve/release cycles. -/
def cycles (canGrow : Nat → Bool) : Nat → S π → RelResult π
  | 0, s => RelResult.ok s
  | Nat.succ n, s =>
    match cycle canGrow s with
    | RelResult.ok s' => cycles canGrow n s'
    | RelResult.fatal used s' => RelResult.fatal used s'

/-- A configuration of the pool state machine: the state plus the
outstanding (not yet resolved) reservation tokens. -/
structure Cfg (π : Type) where
  s : S π
  toks : List PreallocatedFailure
deriving DecidableEq, Repr

/-- An operation on the pool: reserve a new token, or resolve the `k`-th
outstanding token through the failure path (`use`) or the success path
(`release`). -/
inductive POp where
  | reserveOp
  | useOp (k : Nat)
  | releaseOp (k : Nat)
deriving DecidableEq, Repr

/-- One step of the pool machine; resolving removes the token, so every
token is resolved at most once.  `none` marks the model-level stuck `unwrap`
in `use` or the fatal abort in `release`. -/
def stepOp (canGrow : Nat → Bool) (c : Cfg π) (op : POp) : Option (Cfg π) :=
  match op with
  | POp.reserveOp =>
    let (pf, s) := reserve c.s
    some ⟨s, pf :: c.toks⟩
  | POp.useOp k =>
    match c.toks.get? k with
    | none => some c
    | some tok =>
      match useTok tok c.s with
      | none => none
      | some (_, s) => some ⟨s, c.toks.eraseIdx k⟩
  | POp.releaseOp k =>
    match c.toks.get? k with
    | none => some c
    | some tok =>
      match release tok canGrow c.s with
      | RelResult.ok s => some ⟨s, c.toks.eraseIdx k⟩
      | RelResult.fatal _ _ => none

/-- Run a list of pool operations from a configuration. -/
def runOps (canGrow : Nat → Bool) : List POp → Cfg π → Option (Cfg π)
  | [], c => some c
  | op :: ops, c =>
    match stepOp canGrow c op with
    | none => none
    | some c' => runOps canGrow ops c'

/-- Number of outstanding `ReservedFromPool` tokens. -/
def countR (toks : List PreallocatedFailure) : Nat :=
  toks.countP (fun t => decide (t = PreallocatedFailure.Reserved))

/-- The pool-counting invariant: the idle count plus the number of
outstanding `Reserved` tokens never exceeds the free-list length. -/
def Inv (c : Cfg π) : Prop :=
  c.s.wrapped_failure_top + countR c.toks ≤ c.s.wrapped_failure_pool.length

/-- Well-formedness of a trampoline entry state: the idle count is covered
by the free-list and every pooled index parks a capsule userdata whose heap
handle is in range. -/
def PoolWF (s : S π) : Prop :=
  s.wrapped_failure_top ≤ s.wrapped_failure_pool.length ∧
  ∀ i ∈ s.wrapped_failure_pool, ∃ id, s.refSlot i = LV.ud id ∧ id < s.caps.length

/-- Idle count after a cycle sequence, when it did not abort fatally. -/
def idleAfter (r : RelResult π) : Option Nat :=
  match r with
  | RelResult.ok s => some s.wrapped_failure_top
  | RelResult.fatal _ _ => none

/-- Auxiliary-stack slot count after a cycle sequence, when it did not abort
fatally. -/
def slotTopAfter (r : RelResult π) : Option Nat :=
  match r with
  | RelResult.ok s => some s.ref_stack_top
  | RelResult.fatal _ _ => none

/-- The self object is a foreign object that is unregistered, or registered
as a host type whose tag differs from the expected hints. -/
def WrongType (obj : SelfObj) (hints : Nat) : Prop :=
  obj.regTag = none ∨ ∃ tag, obj.regTag = some tag ∧ tag ≠ hints

/-- An empty delegating registry (all entry collections empty). -/
def emptyReg : RawUserDataRegistry :=
  ⟨[], [], [], [], [], [], 0, Option.none, "Proxy"⟩

/-- A sample original registration with one entry in each of the six entry
categories. -/
def origSample : RawUserDataRegistry :=
  ⟨[("f", Except.ok (LV.other 1))], [("g", 2)], [("st", 3)],
    [("mf", Except.ok (LV.other 4))], [("m", 5)], [("mm", 6)], 7, some 8, "T"⟩

/-! ## Helper lemmas -/

theorem getD_set_of_lt {α : Type} (l : List α) (i : Nat) (v d : α)
    (h : i < l.length) : (l.set i v).getD i d = v := by
  induction l generalizing i with
  | nil => simp at h
  | cons a t ih =>
    cases i with
    | zero => simp [List.getD]
    | succ j =>
      simp only [List.set, List.getD, List.get?]
      exact ih j (by simpa using h)

theorem getD_append_length {α : Type} (l : List α) (v d : α) :
    (l ++ [v]).getD l.length d = v := by
  induction l with
  | nil => simp [List.getD]
  | cons a t ih => simp [List.getD] at ih ⊢

theorem set_append_length {α : Type} (l : List α) (x v : α) :
    (l ++ [x]).set l.length v = l ++ [v] := by
  induction l with
  | nil => rfl
  | cons a t ih => simp [ih]

/-! ## C3: `PreallocatedFailure::reserve` -/

/-- C3: for every pool state, `reserve` returns `Reserved` and decrements
the idle count when it is positive, touching nothing else (no allocation);
otherwise it pre-checks the stack for 2 extra slots, allocates a fresh
capsule placed at the base (index 1) of the current frame, and returns
`New` with its handle. -/
theorem reserve_spec (π : Type) (s : S π) :
    (0 < s.wrapped_failure_top →
      reserve s = (PreallocatedFailure.Reserved,
        { s with wrapped_failure_top := s.wrapped_failure_top - 1 })) ∧
    (s.wrapped_failure_top = 0 →
      reserve s = (PreallocatedFailure.New s.caps.length,
        { s with
          caps := s.caps ++ [WrappedFailure.none],
          main := LV.ud s.caps.length :: s.main,
          events := s.events ++ [Event.rawcheckstack 2] })) := by
  constructor
  · intro h
    simp [reserve, h]
  · intro h
    simp [reserve, h, S.emit]

theorem reserve_spec_witness :
    (0 < (initS Nat 20).wrapped_failure_top ∨
        (initS Nat 20).wrapped_failure_top = 0) ∧
    ((initS Nat 20).wrapped_failure_top = 0 →
      reserve (initS Nat 20) = (PreallocatedFailure.New (initS Nat 20).caps.length,
        { initS Nat 20 with
          caps := (initS Nat 20).caps ++ [WrappedFailure.none],
          main := LV.ud (initS Nat 20).caps.length :: (initS Nat 20).main,
          events := (initS Nat 20).events ++ [Event.rawcheckstack 2] })) :=
  ⟨Or.inr rfl, (reserve_spec Nat (initS Nat 20)).2⟩

/-! ## C8: `ref_stack_pop` -/

/-- C8: every auxiliary slot allocation reuses a free-listed index first
(`lua_replace` parking the transient top value there); otherwise, when the
top has reached the max size, growth is attempted starting at the current
size (doubling) and backing off by halving on each `lua_checkstack` failure;
if the increment reaches zero the transient top entry is popped first (so
destructors run during unwinding) and the operation reports fatally with the
number of slots in use; otherwise the new top index is handed out. -/
theorem ref_stack_pop_spec (π : Type) (canGrow : Nat → Bool) (s : S π) :
    (∀ free rest, s.ref_free = free :: rest →
      ref_stack_pop canGrow s = RefPopResult.ok free
        { s with
          refth := (s.refth.dropLast).set (free - 1) (s.refth.getLast?.getD LV.nil),
          ref_free := rest }) ∧
    (s.ref_free = [] → s.ref_stack_top < s.ref_stack_size →
      ref_stack_pop canGrow s = RefPopResult.ok (s.ref_stack_top + 1)
        { s with ref_stack_top := s.ref_stack_top + 1 }) ∧
    (s.ref_free = [] → s.ref_stack_size ≤ s.ref_stack_top →
      growInc canGrow s.ref_stack_size ≠ 0 →
      ref_stack_pop canGrow s = RefPopResult.ok (s.ref_stack_top + 1)
        { s with
          ref_stack_size := s.ref_stack_size + growInc canGrow s.ref_stack_size,
          ref_stack_top := s.ref_stack_top + 1 }) ∧
    (s.ref_free = [] → s.ref_stack_size ≤ s.ref_stack_top →
      growInc canGrow s.ref_stack_size = 0 →
      ref_stack_pop canGrow s =
        RefPopResult.fatal s.ref_stack_top { s with refth := s.refth.dropLast }) ∧
    (∀ n, 0 < n → canGrow n = true → growInc canGrow n = n) ∧
    (∀ n, 0 < n → canGrow n = false →
      growInc canGrow n = growInc canGrow (n / 2)) := by
  refine ⟨?_, ?_, ?_, ?_, ?_, ?_⟩
  · intro free rest h
    simp [ref_stack_pop, h]
  · intro h hlt
    simp [ref_stack_pop, h, Nat.not_le.mpr hlt]
  · intro h hge hinc
    simp [ref_stack_pop, h, hge, hinc]
  · intro h hge hinc
    simp [ref_stack_pop, h, hge, hinc]
  · intro n hn hc
    cases n with
    | zero => simp at hn
    | succ m => simp [growInc, hc]
  · intro n hn hc
    cases n with
    | zero => simp at hn
    | succ m => simp [growInc, hc]

theorem ref_stack_pop_spec_witness :
    ((initS Nat 20).ref_free = [] ∧ (initS Nat 20).ref_stack_top < (initS Nat 20).ref_stack_size) ∧
    ref_stack_pop (fun _ => true) (initS Nat 20) =
      RefPopResult.ok ((initS Nat 20).ref_stack_top + 1)
        { initS Nat 20 with ref_stack_top := (initS Nat 20).ref_stack_top + 1 } :=
  ⟨⟨rfl, by decide⟩,
    (ref_stack_pop_spec Nat (fun _ => true) (initS Nat 20)).2.1 rfl (by decide)⟩

/-! ## C9: proxy/wrapper delegation copies the registration -/

/-- C9 counterexample: delegating `emptyReg` to `origSample` changes six
entry categories, not five — the registration record has six entry
categories (fields, field getters, field setters, meta-fields, methods,
meta-methods) and the `lua_userdata_impl!` body copies all of them. -/
theorem lua_userdata_register_counterexample :
    categoriesChanged emptyReg (lua_userdata_register emptyReg origSample) = 6 ∧
    categoriesChanged emptyReg (lua_userdata_register emptyReg origSample) ≠ 5 := by
  constructor
  · rfl
  · decide

/-- C9 amended: when a proxy/wrapper type delegates its registration to an
already-registered host type, exactly the six categories of entries of the
original registration (plain fields, field getters, field setters,
meta-fields, methods, meta-methods) are copied verbatim, in order, onto the
delegating registration; the remaining record fields (destructor, type id,
type name) stay those of the delegating registry. -/
theorem lua_userdata_register_copies_all (registry orig : RawUserDataRegistry) :
    (lua_userdata_register registry orig).fields = registry.fields ++ orig.fields ∧
    (lua_userdata_register registry orig).field_getters =
      registry.field_getters ++ orig.field_getters ∧
    (lua_userdata_register registry orig).field_setters =
      registry.field_setters ++ orig.field_setters ∧
    (lua_userdata_register registry orig).meta_fields =
      registry.meta_fields ++ orig.meta_fields ∧
    (lua_userdata_register registry orig).methods = registry.methods ++ orig.methods ∧
    (lua_userdata_register registry orig).meta_methods =
      registry.meta_methods ++ orig.meta_methods ∧
    (lua_userdata_register registry orig).destructor = registry.destructor ∧
    (lua_userdata_register registry orig).type_id = registry.type_id ∧
    (lua_userdata_register registry orig).type_name = registry.type_name :=
  ⟨rfl, rfl, rfl, rfl, rfl, rfl, rfl, rfl, rfl⟩

/-! ## C6: re-entrant exclusive callbacks -/

/-- C6: a re-entrant invocation of an exclusive (`mut`) method or `mut`
function callback while an invocation of the same callback is active
(`active = true`, the `RefCell` still mutably borrowed) fails with the
distinct `RecursiveMutCallback` error; the `try_borrow_mut` check is the
first thing the closure does, so no event — in particular no user-closure
run — is emitted, for any self mode, self object and argument outcome. -/
theorem recursive_mut_rejected (tt : UserDataType) (name : String) (c : MCall)
    (argsRes : Except HostError Unit) (fnRes : Except HostError Nat) :
    box_method_mut tt name true c = (Except.error HostError.recursiveMutCallback, []) ∧
    box_function_mut true argsRes fnRes = (Except.error HostError.recursiveMutCallback, []) ∧
    Event.userClosureRun ∉ (box_method_mut tt name true c).2 ∧
    Event.userClosureRun ∉ (box_function_mut true argsRes fnRes).2 := by
  refine ⟨rfl, rfl, ?_, ?_⟩ <;> simp [box_method_mut, box_function_mut]

/-! ## C5: self-argument verification -/

/-- C5: a shared-type method (shared or exclusive borrow) invoked with a
self object that is unregistered or registered as a different host type
fails with a bad-self-argument error whose cause is the type mismatch, and
the user closure never runs; a unique-object method invoked with a self
address different from the singleton address still performs the type-tag
check (for a precise diagnostic) before the self-mismatch error is
reported, and the user closure never runs. -/
theorem box_method_self_mismatch (name : String) (hints target : Nat)
    (c : MCall) (hn : c.nargs ≠ 0) :
    (WrongType c.selfv hints →
      (box_method (UserDataType.Shared hints) name c).1 =
        Except.error (HostError.badSelfArgument name HostError.userDataTypeMismatch) ∧
      Event.userClosureRun ∉ (box_method (UserDataType.Shared hints) name c).2) ∧
    (WrongType c.selfv hints →
      (box_method_mut (UserDataType.Shared hints) name false c).1 =
        Except.error (HostError.badSelfArgument name HostError.userDataTypeMismatch) ∧
      Event.userClosureRun ∉ (box_method_mut (UserDataType.Shared hints) name false c).2) ∧
    (c.selfv.addr ≠ target →
      (box_method (UserDataType.Unique target) name c).1 =
        Except.error (HostError.badSelfArgument name HostError.userDataTypeMismatch) ∧
      (box_method (UserDataType.Unique target) name c).2 = [Event.typeTagCheck]) ∧
    (c.selfv.addr ≠ target →
      (box_method_mut (UserDataType.Unique target) name false c).1 =
        Except.error (HostError.badSelfArgument name HostError.userDataTypeMismatch) ∧
      (box_method_mut (UserDataType.Unique target) name false c).2 =
        [Event.typeTagCheck]) := by
  refine ⟨?_, ?_, ?_, ?_⟩
  · rintro (hno | ⟨tag, htag, hne⟩)
    · simp [box_method, hn, get_userdata_type_id, hno]
    · simp [box_method, hn, get_userdata_type_id, htag, borrow_userdata_scoped, hne]
  · rintro (hno | ⟨tag, htag, hne⟩)
    · simp [box_method_mut, hn, get_userdata_type_id, hno]
    · simp [box_method_mut, hn, get_userdata_type_id, htag, borrow_userdata_scoped_mut, hne]
  · intro haddr
    rcases hreg : c.selfv.regTag with _ | tag
    · simp [box_method, hn, haddr, get_userdata_type_id, hreg]
    · simp [box_method, hn, haddr, get_userdata_type_id, hreg]
  · intro haddr
    rcases hreg : c.selfv.regTag with _ | tag
    · simp [box_method_mut, hn, haddr, get_userdata_type_id, hreg]
    · simp [box_method_mut, hn, haddr, get_userdata_type_id, hreg]

theorem box_method_self_mismatch_witness :
    (MCall.mk 1 (SelfObj.mk 9 Option.none) (Except.ok ()) (Except.ok 0)).nargs ≠ 0 ∧
    WrongType (MCall.mk 1 (SelfObj.mk 9 Option.none) (Except.ok ()) (Except.ok 0)).selfv 1 ∧
    (box_method (UserDataType.Shared 1) "T.m"
        (MCall.mk 1 (SelfObj.mk 9 Option.none) (Except.ok ()) (Except.ok 0))).1 =
      Except.error (HostError.badSelfArgument "T.m" HostError.userDataTypeMismatch) ∧
    (box_method (UserDataType.Unique 5) "T.m"
        (MCall.mk 1 (SelfObj.mk 9 Option.none) (Except.ok ()) (Except.ok 0))).2 =
      [Event.typeTagCheck] :=
  ⟨by decide, Or.inl rfl,
    ((box_method_self_mismatch "T.m" 1 5
        (MCall.mk 1 (SelfObj.mk 9 Option.none) (Except.ok ()) (Except.ok 0))
        (by decide)).1 (Or.inl rfl)).1,
    ((box_method_self_mismatch "T.m" 1 5
        (MCall.mk 1 (SelfObj.mk 9 Option.none) (Except.ok ()) (Except.ok 0))
        (by decide)).2.2.1 (by decide)).2⟩

/-! ## C4: sequential reserve/release cycles -/

theorem cycle_of_pos (cg : Nat → Bool) (s : S π)
    (h : 0 < s.wrapped_failure_top) : cycle cg s = RelResult.ok s := by
  have he : s.wrapped_failure_top - 1 + 1 = s.wrapped_failure_top :=
    Nat.succ_pred_eq_of_pos h
  simp [cycle, reserve, release, h, he]

theorem cycles_of_pos (cg : Nat → Bool) (s : S π)
    (h : 0 < s.wrapped_failure_top) (n : Nat) : cycles cg n s = RelResult.ok s := by
  induction n with
  | zero => rfl
  | succ m ih => simp [cycles, cycle_of_pos cg s h, ih]

/-- C4 counterexample: two reservations from the initial pool state, each
resolved with `release` before the next `reserve`, leave the idle count at
1, not 2, and the auxiliary-stack slot count at 1 while it was 0 before the
sequence — refuting both the "idle count equals N" and the "slot count
before equals slot count after" parts of the claim at N = 2. -/
theorem cycles_claim_counterexample :
    idleAfter (cycles (fun _ => true) 2 (initS Nat 20)) = some 1 ∧
    idleAfter (cycles (fun _ => true) 2 (initS Nat 20)) ≠ some 2 ∧
    slotTopAfter (cycles (fun _ => true) 2 (initS Nat 20)) = some 1 ∧
    (initS Nat 20).ref_stack_top = 0 := by
  refine ⟨rfl, by decide, rfl, rfl⟩

/-- C4 amended: starting from the initial pool state, every sequence of
N ≥ 1 reservations each resolved with `release` before the next `reserve`
reaches the steady state with idle count 1 (not N): the first cycle
allocates one capsule, parks it in the auxiliary context and records its
slot on the pool free-list (so the one consumed auxiliary slot is accounted
for, not leaked), and every later cycle resolves `ReservedFromPool`,
returning the state — idle count and auxiliary slot count included —
exactly to what it was after the first cycle. -/
theorem cycles_steady_state (π : Type) (cg : Nat → Bool) (sz n : Nat)
    (hsz : 0 < sz) (hn : 1 ≤ n) :
    cycles cg n (initS π sz) = RelResult.ok
      { initS π sz with
        refth := [LV.ud 0], caps := [WrappedFailure.none],
        wrapped_failure_top := 1, wrapped_failure_pool := [1],
        ref_stack_top := 1, events := [Event.rawcheckstack 2] } := by
  obtain ⟨m, rfl⟩ : ∃ m, n = m + 1 := ⟨n - 1, by omega⟩
  have hfirst : cycle cg (initS π sz) = RelResult.ok
      { initS π sz with
        refth := [LV.ud 0], caps := [WrappedFailure.none],
        wrapped_failure_top := 1, wrapped_failure_pool := [1],
        ref_stack_top := 1, events := [Event.rawcheckstack 2] } := by
    have hle : ¬ (sz ≤ 0) := by omega
    simp [cycle, reserve, release, ref_stack_pop, initS, S.emit, hle]
  simp only [cycles, hfirst]
  exact cycles_of_pos cg _ (by simp) m

theorem cycles_steady_state_witness :
    (0 < 20 ∧ 1 ≤ 3) ∧
    cycles (fun _ => true) 3 (initS Nat 20) = RelResult.ok
      { initS Nat 20 with
        refth := [LV.ud 0], caps := [WrappedFailure.none],
        wrapped_failure_top := 1, wrapped_failure_pool := [1],
        ref_stack_top := 1, events := [Event.rawcheckstack 2] } :=
  ⟨⟨by decide, by decide⟩,
    cycles_steady_state Nat (fun _ => true) 20 3 (by decide) (by decide)⟩

/-! ## C10: the pool invariant -/

theorem countP_eraseIdx {α : Type} (p : α → Bool) (l : List α) (k : Nat) (x : α)
    (h : l.get? k = some x) :
    l.countP p = (l.eraseIdx k).countP p + (if p x then 1 else 0) := by
  induction l generalizing k with
  | nil => simp at h
  | cons a t ih =>
    cases k with
    | zero =>
      simp only [List.get?] at h
      injection h with h
      subst h
      simp [List.eraseIdx, List.countP_cons]
    | succ j =>
      simp only [List.get?] at h
      have := ih j h
      simp [List.eraseIdx, List.countP_cons, this]
      omega

theorem countR_cons (t : PreallocatedFailure) (ts : List PreallocatedFailure) :
    countR (t :: ts) = countR ts + (if t = PreallocatedFailure.Reserved then 1 else 0) := by
  simp [countR, List.countP_cons]

theorem countR_eraseIdx (ts : List PreallocatedFailure) (k : Nat)
    (t : PreallocatedFailure) (h : ts.get? k = some t) :
    countR ts = countR (ts.eraseIdx k) +
      (if t = PreallocatedFailure.Reserved then 1 else 0) := by
  have := countP_eraseIdx (fun u => decide (u = PreallocatedFailure.Reserved)) ts k t h
  simpa [countR] using this

theorem ref_stack_pop_pool_fields (cg : Nat → Bool) (s : S π) (i : Nat) (s2 : S π)
    (h : ref_stack_pop cg s = RefPopResult.ok i s2) :
    s2.wrapped_failure_pool = s.wrapped_failure_pool ∧
    s2.wrapped_failure_top = s.wrapped_failure_top := by
  rcases hf : s.ref_free with _ | ⟨free, rest⟩
  · by_cases hge : s.ref_stack_size ≤ s.ref_stack_top
    · by_cases hinc : growInc cg s.ref_stack_size = 0
      · simp [ref_stack_pop, hf, ge_iff_le, hge, hinc] at h
      · simp [ref_stack_pop, hf, ge_iff_le, hge, hinc] at h
        rcases h with ⟨-, rfl⟩
        exact ⟨rfl, rfl⟩
    · simp [ref_stack_pop, hf, ge_iff_le, hge] at h
      rcases h with ⟨-, rfl⟩
      exact ⟨rfl, rfl⟩
  · simp [ref_stack_pop, hf] at h
    rcases h with ⟨-, rfl⟩
    exact ⟨rfl, rfl⟩

theorem stepOp_inv (cg : Nat → Bool) (c c' : Cfg π) (op : POp) (h : Inv c)
    (hs : stepOp cg c op = some c') : Inv c' := by
  cases op with
  | reserveOp =>
    by_cases h0 : 0 < c.s.wrapped_failure_top
    · simp [stepOp, reserve, h0] at hs
      subst hs
      simp [Inv, countR_cons] at h ⊢
      omega
    · simp [stepOp, reserve, h0, S.emit] at hs
      subst hs
      simp [Inv, countR_cons] at h ⊢
      omega
  | useOp k =>
    simp only [stepOp] at hs
    rcases hget : c.toks.get? k with _ | tok <;> rw [hget] at hs
    · injection hs with hs
      subst hs
      exact h
    · cases tok with
      | New id =>
        simp only [useTok] at hs
        injection hs with hs
        subst hs
        have hcnt := countR_eraseIdx c.toks k _ hget
        simp [Inv, S.mainSettop] at h ⊢
        simp at hcnt
        omega
      | Reserved =>
        simp only [useTok] at hs
        rcases hpool : c.s.wrapped_failure_pool with _ | ⟨i, rest⟩ <;>
          rw [hpool] at hs
        · exact absurd hs (by simp)
        · simp [S.mainSettop, S.emit, S.refSlot] at hs
          subst hs
          have hcnt := countR_eraseIdx c.toks k _ hget
          simp at hcnt
          simp [Inv] at h ⊢
          rw [hpool] at h
          simp at h
          omega
  | releaseOp k =>
    simp only [stepOp] at hs
    rcases hget : c.toks.get? k with _ | tok <;> rw [hget] at hs
    · injection hs with hs
      subst hs
      exact h
    · cases tok with
      | New id =>
        simp only [release] at hs
        rcases hpop : ref_stack_pop cg _ with ⟨i, s2⟩ | ⟨u, s2⟩ <;>
          rw [hpop] at hs
        · injection hs with hs
          subst hs
          have hpf := ref_stack_pop_pool_fields cg _ i s2 hpop
          have h1 : s2.wrapped_failure_pool = c.s.wrapped_failure_pool := by
            rw [hpf.1]
          have h2 : s2.wrapped_failure_top = c.s.wrapped_failure_top := by
            rw [hpf.2]
          have hcnt := countR_eraseIdx c.toks k _ hget
          simp at hcnt
          simp [Inv] at h ⊢
          rw [h1, h2]
          omega
        · exact absurd hs (by simp)
      | Reserved =>
        simp only [release] at hs
        injection hs with hs
        subst hs
        have hcnt := countR_eraseIdx c.toks k _ hget
        simp at hcnt
        simp [Inv] at h ⊢
        omega

theorem runOps_inv (cg : Nat → Bool) (ops : List POp) (c c' : Cfg π)
    (h : Inv c) (hr : runOps cg ops c = some c') : Inv c' := by
  induction ops generalizing c with
  | nil =>
    simp [runOps] at hr
    subst hr
    exact h
  | cons op ops ih =>
    simp only [runOps] at hr
    rcases hstep : stepOp cg c op with _ | c₁ <;> rw [hstep] at hr
    · exact absurd hr (by simp)
    · exact ih c₁ (stepOp_inv cg c c₁ op h hstep) hr

/-- C10: from the initial pool state, every sequence of reserve/use/release
operations resolving each token at most once preserves the invariant that
the idle count is at most the free-list length; moreover whenever a
`ReservedFromPool` token is outstanding, the free-list is non-empty and
materializing the token via `use` succeeds (the `unwrap` never fires). -/
theorem pool_use_never_fails (π : Type) (cg : Nat → Bool) (sz : Nat)
    (ops : List POp) (c' : Cfg π)
    (hr : runOps cg ops (Cfg.mk (initS π sz) []) = some c') :
    c'.s.wrapped_failure_top ≤ c'.s.wrapped_failure_pool.length ∧
    (∀ k, c'.toks.get? k = some PreallocatedFailure.Reserved →
      c'.s.wrapped_failure_pool ≠ [] ∧
      ∃ cap s', useTok PreallocatedFailure.Reserved c'.s = some (cap, s')) := by
  have hinit : Inv (Cfg.mk (initS π sz) []) := by simp [Inv, countR, initS]
  have hinv : Inv c' := runOps_inv cg ops _ c' hinit hr
  simp only [Inv] at hinv
  constructor
  · omega
  · intro k hk
    have hmem : PreallocatedFailure.Reserved ∈ c'.toks := List.get?_mem hk
    have hcnt : 0 < countR c'.toks := by
      simp only [countR]
      rw [List.countP_pos_iff]
      exact ⟨PreallocatedFailure.Reserved, hmem, by simp⟩
    have hpos : 0 < c'.s.wrapped_failure_pool.length := by omega
    rcases hpool : c'.s.wrapped_failure_pool with _ | ⟨i, rest⟩
    · rw [hpool] at hpos; simp at hpos
    · refine ⟨by simp [hpool], ?_⟩
      simp only [useTok, hpool]
      exact ⟨_, _, rfl⟩

theorem pool_use_never_fails_witness :
    runOps (fun _ => true) [POp.reserveOp] (Cfg.mk (initS Nat 20) []) =
      some (Cfg.mk
        ⟨[LV.ud 0], [], [], [WrappedFailure.none], 0, [], [], 0, 20, [],
          [Event.rawcheckstack 2]⟩
        [PreallocatedFailure.New 0]) ∧
    (Cfg.mk
        (⟨[LV.ud 0], [], [], [WrappedFailure.none], 0, [], [], 0, 20, [],
          [Event.rawcheckstack 2]⟩ : S Nat)
        [PreallocatedFailure.New 0]).s.wrapped_failure_top ≤
      (Cfg.mk
        (⟨[LV.ud 0], [], [], [WrappedFailure.none], 0, [], [], 0, 20, [],
          [Event.rawcheckstack 2]⟩ : S Nat)
        [PreallocatedFailure.New 0]).s.wrapped_failure_pool.length :=
  ⟨rfl, (pool_use_never_fails Nat (fun _ => true) 20 [POp.reserveOp] _ rfl).1⟩

/-! ## Trampoline failure-path lemmas -/

theorem raiseWith_spec (R π : Type) (cap : Nat) (w : WrappedFailure π) (s : S π) :
    raiseWith (R := R) cap w s = TrampOut.raised cap
      { s with caps := s.caps.set cap w,
               events := s.events ++ [Event.setInternalMetatable] } := rfl

theorem useTok_spec_new (id : Nat) (s1 : S π) :
    useTok (PreallocatedFailure.New id) s1 = some (id, s1.mainSettop 1) := rfl

theorem useTok_spec_reserved (s1 : S π) (i : Nat) (rest : List Nat) (id : Nat)
    (hp : s1.wrapped_failure_pool = i :: rest)
    (hslot : s1.refth[i - 1]?.getD LV.nil = LV.ud id) :
    useTok PreallocatedFailure.Reserved s1 = some (id,
      { s1 with
        main := [LV.ud id],
        refth := s1.refth.set (i - 1) LV.nil,
        wrapped_failure_pool := rest,
        ref_free := i :: s1.ref_free,
        events := s1.events ++ [Event.rawcheckstack 2] }) := by
  simp [useTok, hp, S.mainSettop, S.emit, S.refSlot, List.getD, hslot, touserdata]

theorem reserve_of_pos (s : S π) (h0 : 0 < s.wrapped_failure_top) :
    reserve s = (PreallocatedFailure.Reserved,
      { s with wrapped_failure_top := s.wrapped_failure_top - 1 }) := by
  simp [reserve, h0]

theorem reserve_of_zero (s : S π) (h0 : ¬ 0 < s.wrapped_failure_top) :
    reserve s = (PreallocatedFailure.New s.caps.length,
      { s with
        caps := s.caps ++ [WrappedFailure.none],
        main := LV.ud s.caps.length :: s.main,
        events := s.events ++ [Event.rawcheckstack 2] }) := by
  simp [reserve, h0, S.emit]

theorem pool_head_exists (s : S π) (hwf : PoolWF s)
    (h0 : 0 < s.wrapped_failure_top) :
    ∃ i rest id, s.wrapped_failure_pool = i :: rest ∧
      s.refth[i - 1]?.getD LV.nil = LV.ud id ∧ id < s.caps.length := by
  rcases hpl : s.wrapped_failure_pool with _ | ⟨i, r⟩
  · exfalso
    have := hwf.1
    rw [hpl] at this
    simp at this
    omega
  · obtain ⟨id, hslot, hid⟩ := hwf.2 i (by rw [hpl]; exact List.mem_cons_self _ _)
    simp only [S.refSlot, List.getD, List.get?_eq_getElem?] at hslot
    exact ⟨i, r, id, rfl, hslot, hid⟩

/-! ## C1: host panics cross the boundary opaquely -/

/-- C1: whenever the host closure panics inside either trampoline, the
reserved capsule is materialized, the panic payload is written into it
unchanged — the statement is polymorphic in the payload type `π`, so the
trampoline cannot inspect or format the payload — the internal error
metatable is attached, and a foreign error is raised with the capsule as
the error value; the payload stored equals the payload caught. -/
theorem trampoline_panic_preserved (π R : Type) (p : π) (wrap cs : Bool)
    (tb : String) (cg : Nat → Bool) (encode : List Nat → Except String (List LV))
    (s : S π) (hwf : PoolWF s) :
    (∃ cap s', callback_error_ext (R := R) wrap cs tb cg (FOut.panic p) s =
        TrampOut.raised cap s' ∧
      s'.caps.getD cap WrappedFailure.none = WrappedFailure.panic (some p) ∧
      s'.main = [LV.ud cap] ∧
      s'.events = s.events ++ [Event.rawcheckstack 2, Event.setInternalMetatable]) ∧
    (∃ cap s', callback_error_ext_yieldable wrap cs tb cg encode (FOut.panic p) s =
        TrampOut.raised cap s' ∧
      s'.caps.getD cap WrappedFailure.none = WrappedFailure.panic (some p) ∧
      s'.main = [LV.ud cap] ∧
      s'.events = s.events ++ [Event.rawcheckstack 2, Event.setInternalMetatable]) := by
  by_cases h0 : 0 < s.wrapped_failure_top
  · obtain ⟨i, rest, id, hp, hslot, hid⟩ := pool_head_exists s hwf h0
    have hu := useTok_spec_reserved
      ({ s with wrapped_failure_top := s.wrapped_failure_top - 1 }) i rest id hp hslot
    constructor
    · simp only [callback_error_ext, reserve_of_pos s h0, hu, raiseWith_spec]
      refine ⟨id, _, rfl, ?_, ?_, ?_⟩
      · exact getD_set_of_lt _ _ _ _ hid
      · rfl
      · simp
    · simp only [callback_error_ext_yieldable, reserve_of_pos s h0, hu, raiseWith_spec]
      refine ⟨id, _, rfl, ?_, ?_, ?_⟩
      · exact getD_set_of_lt _ _ _ _ hid
      · rfl
      · simp
  · have hr := reserve_of_zero s h0
    constructor
    · simp only [callback_error_ext, hr, useTok_spec_new, raiseWith_spec]
      refine ⟨s.caps.length, _, rfl, ?_, ?_, ?_⟩
      · show ((s.caps ++ [WrappedFailure.none]).set s.caps.length
            (WrappedFailure.panic (some p))).getD s.caps.length WrappedFailure.none =
          WrappedFailure.panic (some p)
        rw [set_append_length]
        exact getD_append_length _ _ _
      · simp [S.mainSettop]
      · simp [S.mainSettop]
    · simp only [callback_error_ext_yieldable, hr, useTok_spec_new, raiseWith_spec]
      refine ⟨s.caps.length, _, rfl, ?_, ?_, ?_⟩
      · show ((s.caps ++ [WrappedFailure.none]).set s.caps.length
            (WrappedFailure.panic (some p))).getD s.caps.length WrappedFailure.none =
          WrappedFailure.panic (some p)
        rw [set_append_length]
        exact getD_append_length _ _ _
      · simp [S.mainSettop]
      · simp [S.mainSettop]

theorem trampoline_panic_preserved_witness :
    PoolWF (initS Nat 20) ∧
    (∃ cap s', callback_error_ext (R := Unit) true true "TB" (fun _ => true)
        (FOut.panic (7 : Nat)) (initS Nat 20) = TrampOut.raised cap s' ∧
      s'.caps.getD cap WrappedFailure.none = WrappedFailure.panic (some 7) ∧
      s'.main = [LV.ud cap] ∧
      s'.events = (initS Nat 20).events ++
        [Event.rawcheckstack 2, Event.setInternalMetatable]) :=
  ⟨⟨by decide, by simp [initS]⟩,
    (trampoline_panic_preserved Nat Unit 7 true true "TB" (fun _ => true)
      (fun ys => Except.ok (ys.map LV.other)) (initS Nat 20)
      ⟨by decide, by simp [initS]⟩).1⟩

/-! ## C2: structured host errors, wrapped and unwrapped -/

/-- C2: on a structured host error, with unwrapped propagation requested the
raw error is written into the materialized capsule and the foreign error is
raised immediately with no traceback decoration (the event trace contains no
traceback capture); otherwise the error written is a `CallbackError` wrapping
the original error as the (shared) cause together with the captured
traceback, with the fixed placeholder `"<not enough stack space for
traceback>"` substituted when `lua_checkstack` reports insufficient room —
in both trampolines. -/
theorem trampoline_error_spec (π R : Type) (e : HostError) (cs : Bool)
    (tb : String) (cg : Nat → Bool) (encode : List Nat → Except String (List LV))
    (s : S π) (hwf : PoolWF s) :
    (∃ cap s', callback_error_ext (R := R) false cs tb cg (FOut.err e) s =
        TrampOut.raised cap s' ∧
      s'.caps.getD cap WrappedFailure.none = WrappedFailure.error e ∧
      s'.main = [LV.ud cap] ∧
      s'.events = s.events ++ [Event.rawcheckstack 2, Event.setInternalMetatable]) ∧
    (∃ cap s', callback_error_ext (R := R) true cs tb cg (FOut.err e) s =
        TrampOut.raised cap s' ∧
      s'.caps.getD cap WrappedFailure.none = WrappedFailure.error
        (HostError.callbackError
          (if cs then tb else "<not enough stack space for traceback>") e) ∧
      s'.main = [LV.ud cap] ∧
      s'.events = s.events ++ [Event.rawcheckstack 2] ++
        (if cs then [Event.tracebackCaptured] else []) ++
        [Event.setInternalMetatable]) ∧
    (∃ cap s', callback_error_ext_yieldable false cs tb cg encode (FOut.err e) s =
        TrampOut.raised cap s' ∧
      s'.caps.getD cap WrappedFailure.none = WrappedFailure.error e ∧
      s'.main = [LV.ud cap] ∧
      s'.events = s.events ++ [Event.rawcheckstack 2, Event.setInternalMetatable]) ∧
    (∃ cap s', callback_error_ext_yieldable true cs tb cg encode (FOut.err e) s =
        TrampOut.raised cap s' ∧
      s'.caps.getD cap WrappedFailure.none = WrappedFailure.error
        (HostError.callbackError
          (if cs then tb else "<not enough stack space for traceback>") e) ∧
      s'.main = [LV.ud cap] ∧
      s'.events = s.events ++ [Event.rawcheckstack 2] ++
        (if cs then [Event.tracebackCaptured] else []) ++
        [Event.setInternalMetatable]) := by
  by_cases h0 : 0 < s.wrapped_failure_top
  · obtain ⟨i, rest, id, hp, hslot, hid⟩ := pool_head_exists s hwf h0
    have hu := useTok_spec_reserved
      ({ s with wrapped_failure_top := s.wrapped_failure_top - 1 }) i rest id hp hslot
    refine ⟨?_, ?_, ?_, ?_⟩
    · simp only [callback_error_ext, reserve_of_pos s h0, hu, raiseWith_spec]
      refine ⟨id, _, rfl, ?_, ?_, ?_⟩
      · exact getD_set_of_lt _ _ _ _ hid
      · rfl
      · simp
    · cases cs
      · simp only [callback_error_ext, reserve_of_pos s h0, hu, raiseWith_spec,
          Bool.not_true, Bool.false_eq_true, if_false, S.emit]
        refine ⟨id, _, rfl, ?_, ?_, ?_⟩
        · exact getD_set_of_lt _ _ _ _ hid
        · rfl
        · simp
      · simp only [callback_error_ext, reserve_of_pos s h0, hu, raiseWith_spec,
          Bool.not_true, Bool.false_eq_true, if_false, if_true, S.emit]
        refine ⟨id, _, rfl, ?_, ?_, ?_⟩
        · exact getD_set_of_lt _ _ _ _ hid
        · rfl
        · simp
    · simp only [callback_error_ext_yieldable, reserve_of_pos s h0, hu, raiseWith_spec]
      refine ⟨id, _, rfl, ?_, ?_, ?_⟩
      · exact getD_set_of_lt _ _ _ _ hid
      · rfl
      · simp
    · cases cs
      · simp only [callback_error_ext_yieldable, reserve_of_pos s h0, hu, raiseWith_spec,
          Bool.not_true, Bool.false_eq_true, if_false, S.emit]
        refine ⟨id, _, rfl, ?_, ?_, ?_⟩
        · exact getD_set_of_lt _ _ _ _ hid
        · rfl
        · simp
      · simp only [callback_error_ext_yieldable, reserve_of_pos s h0, hu, raiseWith_spec,
          Bool.not_true, Bool.false_eq_true, if_false, if_true, S.emit]
        refine ⟨id, _, rfl, ?_, ?_, ?_⟩
        · exact getD_set_of_lt _ _ _ _ hid
        · rfl
        · simp
  · have hr := reserve_of_zero s h0
    refine ⟨?_, ?_, ?_, ?_⟩
    · simp only [callback_error_ext, hr, useTok_spec_new, raiseWith_spec]
      refine ⟨s.caps.length, _, rfl, ?_, ?_, ?_⟩
      · show ((s.caps ++ [WrappedFailure.none]).set s.caps.length
            (WrappedFailure.error e)).getD s.caps.length WrappedFailure.none =
          WrappedFailure.error e
        rw [set_append_length]
        exact getD_append_length _ _ _
      · simp [S.mainSettop]
      · simp [S.mainSettop]
    · cases cs
      · simp only [callback_error_ext, hr, useTok_spec_new, raiseWith_spec,
          Bool.not_true, Bool.false_eq_true, if_false, S.emit]
        refine ⟨s.caps.length, _, rfl, ?_, ?_, ?_⟩
        · show ((s.caps ++ [WrappedFailure.none]).set s.caps.length
              (WrappedFailure.error (HostError.callbackError
                "<not enough stack space for traceback>" e))).getD
              s.caps.length WrappedFailure.none = _
          rw [set_append_length]
          exact getD_append_length _ _ _
        · simp [S.mainSettop]
        · simp [S.mainSettop]
      · simp only [callback_error_ext, hr, useTok_spec_new, raiseWith_spec,
          Bool.not_true, Bool.false_eq_true, if_false, if_true, S.emit]
        refine ⟨s.caps.length, _, rfl, ?_, ?_, ?_⟩
        · show ((s.caps ++ [WrappedFailure.none]).set s.caps.length
              (WrappedFailure.error (HostError.callbackError tb e))).getD
              s.caps.length WrappedFailure.none = _
          rw [set_append_length]
          exact getD_append_length _ _ _
        · simp [S.mainSettop]
        · simp [S.mainSettop]
    · simp only [callback_error_ext_yieldable, hr, useTok_spec_new, raiseWith_spec]
      refine ⟨s.caps.length, _, rfl, ?_, ?_, ?_⟩
      · show ((s.caps ++ [WrappedFailure.none]).set s.caps.length
            (WrappedFailure.error e)).getD s.caps.length WrappedFailure.none =
          WrappedFailure.error e
        rw [set_append_length]
        exact getD_append_length _ _ _
      · simp [S.mainSettop]
      · simp [S.mainSettop]
    · cases cs
      · simp only [callback_error_ext_yieldable, hr, useTok_spec_new, raiseWith_spec,
          Bool.not_true, Bool.false_eq_true, if_false, S.emit]
        refine ⟨s.caps.length, _, rfl, ?_, ?_, ?_⟩
        · show ((s.caps ++ [WrappedFailure.none]).set s.caps.length
              (WrappedFailure.error (HostError.callbackError
                "<not enough stack space for traceback>" e))).getD
              s.caps.length WrappedFailure.none = _
          rw [set_append_length]
          exact getD_append_length _ _ _
        · simp [S.mainSettop]
        · simp [S.mainSettop]
      · simp only [callback_error_ext_yieldable, hr, useTok_spec_new, raiseWith_spec,
          Bool.not_true, Bool.false_eq_true, if_false, if_true, S.emit]
        refine ⟨s.caps.length, _, rfl, ?_, ?_, ?_⟩
        · show ((s.caps ++ [WrappedFailure.none]).set s.caps.length
              (WrappedFailure.error (HostError.callbackError tb e))).getD
              s.caps.length WrappedFailure.none = _
          rw [set_append_length]
          exact getD_append_length _ _ _
        · simp [S.mainSettop]
        · simp [S.mainSettop]

theorem trampoline_error_spec_witness :
    PoolWF (initS Nat 20) ∧
    (∃ cap s', callback_error_ext (R := Unit) true false "TB" (fun _ => true)
        (FOut.err (HostError.other 3)) (initS Nat 20) = TrampOut.raised cap s' ∧
      s'.caps.getD cap WrappedFailure.none = WrappedFailure.error
        (HostError.callbackError "<not enough stack space for traceback>"
          (HostError.other 3)) ∧
      s'.main = [LV.ud cap] ∧
      s'.events = (initS Nat 20).events ++ [Event.rawcheckstack 2] ++ [] ++
        [Event.setInternalMetatable]) :=
  ⟨⟨by decide, by simp [initS]⟩,
    (trampoline_error_spec Nat Unit (HostError.other 3) false "TB" (fun _ => true)
      (fun ys => Except.ok (ys.map LV.other)) (initS Nat 20)
      ⟨by decide, by simp [initS]⟩).2.1⟩

/-! ## C7: yieldable success paths -/

/-- C7: in the yieldable trampoline, when the host closure succeeds and the
yielded-values buffer is non-empty, the buffered values are encoded onto the
raw handle's stack, moved onto the calling frame, and a foreign yield of
their count is issued instead of a normal return; an encoding failure is
routed through the failure path (capsule materialized, external error
written, metatable attached, foreign error raised); when the buffer is empty
the capsule is released (the idle count returns to `max top 1`) and the host
result code is returned as-is. -/
theorem yieldable_success_spec (π : Type) (r : Nat) (vs : List Nat)
    (wrap cs : Bool) (tb : String) (cg : Nat → Bool)
    (encode : List Nat → Except String (List LV)) (s : S π) (hwf : PoolWF s)
    (hrel : s.ref_free = [] → s.ref_stack_top < s.ref_stack_size) :
    (∀ lvs, vs ≠ [] → encode vs = Except.ok lvs →
      ∃ s', callback_error_ext_yieldable wrap cs tb cg encode (FOut.ok r vs) s =
          TrampOut.yielded lvs.length s' ∧
        s'.main = lvs ∧ s'.rawst = s.rawst ∧ s'.yielded = []) ∧
    (∀ msg, vs ≠ [] → encode vs = Except.error msg →
      ∃ cap s', callback_error_ext_yieldable wrap cs tb cg encode (FOut.ok r vs) s =
          TrampOut.raised cap s' ∧
        s'.caps.getD cap WrappedFailure.none =
          WrappedFailure.error (HostError.external msg) ∧
        s'.main = [LV.ud cap] ∧
        Event.setInternalMetatable ∈ s'.events) ∧
    (vs = [] →
      ∃ s', callback_error_ext_yieldable wrap cs tb cg encode (FOut.ok r vs) s =
          TrampOut.ret r s' ∧
        s'.wrapped_failure_top = max s.wrapped_failure_top 1 ∧
        s'.yielded = []) := by
  refine ⟨?_, ?_, ?_⟩
  · intro lvs hne henc
    rcases vs with _ | ⟨v, vt⟩
    · exact absurd rfl hne
    · by_cases h0 : 0 < s.wrapped_failure_top
      · simp only [callback_error_ext_yieldable, reserve_of_pos s h0, henc,
          List.isEmpty_cons, Bool.false_eq_true, if_false]
        refine ⟨_, rfl, ?_, ?_, ?_⟩
        · simp [S.mainSettop]
        · simp [S.mainSettop]
        · rfl
      · simp only [callback_error_ext_yieldable, reserve_of_zero s h0, henc,
          List.isEmpty_cons, Bool.false_eq_true, if_false]
        refine ⟨_, rfl, ?_, ?_, ?_⟩
        · simp [S.mainSettop]
        · simp [S.mainSettop]
        · rfl
  · intro msg hne henc
    rcases vs with _ | ⟨v, vt⟩
    · exact absurd rfl hne
    · by_cases h0 : 0 < s.wrapped_failure_top
      · obtain ⟨i, rest, id, hp, hslot, hid⟩ := pool_head_exists s hwf h0
        have hu := useTok_spec_reserved
          ({ { s with wrapped_failure_top := s.wrapped_failure_top - 1 }
            with yielded := [] }) i rest id hp hslot
        simp only [callback_error_ext_yieldable, reserve_of_pos s h0, henc,
          List.isEmpty_cons, Bool.false_eq_true, if_false, hu, raiseWith_spec]
        refine ⟨id, _, rfl, ?_, ?_, ?_⟩
        · exact getD_set_of_lt _ _ _ _ hid
        · rfl
        · simp
      · have hr := reserve_of_zero s h0
        simp only [callback_error_ext_yieldable, hr, henc,
          List.isEmpty_cons, Bool.false_eq_true, if_false, useTok_spec_new,
          raiseWith_spec]
        refine ⟨s.caps.length, _, rfl, ?_, ?_, ?_⟩
        · show ((s.caps ++ [WrappedFailure.none]).set s.caps.length
              (WrappedFailure.error (HostError.external msg))).getD
              s.caps.length WrappedFailure.none = _
          rw [set_append_length]
          exact getD_append_length _ _ _
        · simp [S.mainSettop]
        · simp [S.mainSettop]
  · rintro rfl
    by_cases h0 : 0 < s.wrapped_failure_top
    · simp only [callback_error_ext_yieldable, reserve_of_pos s h0,
        List.isEmpty_nil, if_true, release]
      refine ⟨_, rfl, ?_, rfl⟩
      simp
      omega
    · have hr := reserve_of_zero s h0
      rcases hf : s.ref_free with _ | ⟨f, fr⟩
      · have hlt := hrel hf
        simp only [callback_error_ext_yieldable, hr, List.isEmpty_nil, if_true,
          release, List.dropLast_concat, ref_stack_pop]
        rw [show ({ s with
            caps := s.caps ++ [WrappedFailure.none],
            main := LV.ud s.caps.length :: s.main,
            events := s.events ++ [Event.rawcheckstack 2],
            yielded := [] } : S π).ref_free = s.ref_free from rfl, hf]
        simp only []
        rw [if_neg (by simp; omega)]
        refine ⟨_, rfl, ?_, rfl⟩
        simp
        omega
      · simp only [callback_error_ext_yieldable, hr, List.isEmpty_nil, if_true,
          release, ref_stack_pop]
        rw [show ({ s with
            caps := s.caps ++ [WrappedFailure.none],
            main := LV.ud s.caps.length :: s.main,
            events := s.events ++ [Event.rawcheckstack 2],
            yielded := [] } : S π).ref_free = s.ref_free from rfl, hf]
        simp only []
        refine ⟨_, rfl, ?_, rfl⟩
        simp
        omega

theorem yieldable_success_spec_witness :
    PoolWF (initS Nat 20) ∧
    ((initS Nat 20).ref_free = [] →
      (initS Nat 20).ref_stack_top < (initS Nat 20).ref_stack_size) ∧
    (∃ s', callback_error_ext_yieldable true true "TB" (fun _ => true)
        (fun ys => Except.ok (ys.map LV.other)) (FOut.ok 0 [5, 6]) (initS Nat 20) =
        TrampOut.yielded (List.length [LV.other 5, LV.other 6]) s' ∧
      s'.main = [LV.other 5, LV.other 6] ∧
      s'.rawst = (initS Nat 20).rawst ∧ s'.yielded = []) :=
  ⟨⟨by decide, by simp [initS]⟩, fun _ => by decide,
    (yieldable_success_spec Nat 0 [5, 6] true true "TB" (fun _ => true)
      (fun ys => Except.ok (ys.map LV.other)) (initS Nat 20)
      ⟨by decide, by simp [initS]⟩ (fun _ => by decide)).1
      [LV.other 5, LV.other 6] (by decide) rfl⟩

end Mlua
